import Mathlib

/-!
Verification of the shutter-api-examples repository: a shallow embedding of the
single-party encrypt/decrypt demo (`App.tsx` of the shutter-encryption example),
the two-party Rock-Paper-Scissors game (`App.tsx` of the rock-paper-scissors
example), and the hello-world demo, together with the codec helpers they use.

Network calls (`fetchShutterData`, `fetchDecryptionKey`), the Shutter SDK
primitives (`encryptData`, `decrypt`) and the random sigma are external
collaborators; they enter the model as explicit environment parameters, and
every operation additionally returns the list of external calls it issued so
that ordering and at-most-once properties can be stated.
-/

namespace Shutter

/-- Hex digit for a value 0..15, lowercase, as produced by viem's hex encoder. -/
def hexDigitChar (n : Nat) : Char :=
  if n < 10 then Char.ofNat (48 + n) else Char.ofNat (87 + n)

/-- Numeric value of a hex digit character (0-9, a-f, A-F), as accepted by
viem's `charCodeToBase16`. -/
def hexDigitVal (c : Char) : Option Nat :=
  if 48 ≤ c.toNat ∧ c.toNat ≤ 57 then some (c.toNat - 48)
  else if 97 ≤ c.toNat ∧ c.toNat ≤ 102 then some (c.toNat - 87)
  else if 65 ≤ c.toNat ∧ c.toNat ≤ 70 then some (c.toNat - 55)
  else none

/-- Two hex digits of one byte. -/
def byteToHex (b : Nat) : List Char :=
  [hexDigitChar (b / 16), hexDigitChar (b % 16)]

/-- Hex digits of a byte list. -/
def bytesToHexChars : List Nat → List Char
  | [] => []
  | b :: bs => byteToHex b ++ bytesToHexChars bs

/-- Parse pairs of hex digits back into bytes; `none` on an odd-length or
non-hex input (viem's `hexToBytes` throws there). -/
def hexCharsToBytes : List Char → Option (List Nat)
  | [] => some []
  | [_] => none
  | c1 :: c2 :: rest => do
    let h ← hexDigitVal c1
    let l ← hexDigitVal c2
    let bs ← hexCharsToBytes rest
    pure ((16 * h + l) :: bs)

/-- UTF-8 encoding of one Unicode scalar value, as produced by `TextEncoder`
(which viem's `stringToHex` uses). -/
def utf8EncodeChar (c : Char) : List Nat :=
  let v := c.toNat
  if v < 128 then [v]
  else if v < 2048 then [192 + v / 64, 128 + v % 64]
  else if v < 65536 then [224 + v / 4096, 128 + v / 64 % 64, 128 + v % 64]
  else [240 + v / 262144, 128 + v / 4096 % 64, 128 + v / 64 % 64, 128 + v % 64]

/-- UTF-8 encoding of a character list. -/
def utf8Encode : List Char → List Nat
  | [] => []
  | c :: cs => utf8EncodeChar c ++ utf8Encode cs

/-- Check for a UTF-8 continuation byte. -/
def contOk (b : Nat) : Bool := 128 ≤ b && b < 192

/-- Decode the tail of a two-byte UTF-8 sequence with lead byte `b`. -/
def decode2 (b : Nat) : List Nat → Option (Nat × List Nat)
  | b2 :: rest2 => if contOk b2 then some ((b - 192) * 64 + (b2 - 128), rest2) else none
  | [] => none

/-- Decode the tail of a three-byte UTF-8 sequence with lead byte `b`,
rejecting overlong forms and surrogates. -/
def decode3 (b : Nat) : List Nat → Option (Nat × List Nat)
  | b2 :: b3 :: rest3 =>
    if contOk b2 && contOk b3 then
      let v := (b - 224) * 4096 + (b2 - 128) * 64 + (b3 - 128)
      if 2048 ≤ v && (v < 55296 || 57343 < v) then some (v, rest3) else none
    else none
  | _ => none

/-- Decode the tail of a four-byte UTF-8 sequence with lead byte `b`,
rejecting overlong forms and out-of-range values. -/
def decode4 (b : Nat) : List Nat → Option (Nat × List Nat)
  | b2 :: b3 :: b4 :: rest4 =>
    if contOk b2 && contOk b3 && contOk b4 then
      let v := (b - 240) * 262144 + (b2 - 128) * 4096 + (b3 - 128) * 64 + (b4 - 128)
      if 65536 ≤ v && v < 1114112 then some (v, rest4) else none
    else none
  | _ => none

/-- Decode one UTF-8 character from the front of a byte list, returning its
scalar value and the remaining bytes; `none` on an invalid or empty sequence
(invalid lead bytes 0x80-0xC1 and 0xF5-0xFF are rejected, as a strict
`TextDecoder` does). -/
def utf8DecodeOne : List Nat → Option (Nat × List Nat)
  | [] => none
  | b :: rest =>
    if b < 128 then some (b, rest)
    else if b < 194 then none
    else if b < 224 then decode2 b rest
    else if b < 240 then decode3 b rest
    else if b < 245 then decode4 b rest
    else none

/-- Fuel-driven loop of the UTF-8 decoder: decode characters one at a time.
The fuel only serves termination; `utf8Decode` supplies the list length, which
always suffices because each step consumes at least one byte. -/
def utf8DecodeGo : Nat → List Nat → Option (List Nat)
  | _, [] => some []
  | 0, _ :: _ => none
  | fuel + 1, b :: rest =>
    match utf8DecodeOne (b :: rest) with
    | none => none
    | some (v, rest') => (utf8DecodeGo fuel rest').map (fun l => v :: l)

/-- UTF-8 decoding of a byte list into Unicode scalar values; `none` on an
invalid sequence. -/
def utf8Decode (l : List Nat) : Option (List Nat) :=
  utf8DecodeGo l.length l

/-- Model of viem's `stringToHex`: UTF-8 encode the text and write the bytes
as lowercase hex with a `0x` marker. -/
def stringToHex (s : String) : String :=
  String.mk ('0' :: 'x' :: bytesToHexChars (utf8Encode s.data))

/-- Model of viem's `hexToString`: strip the `0x` marker, parse the hex bytes
and UTF-8 decode them. Failures (which viem reports by throwing) are `none`. -/
def hexToString (hex : String) : Option String :=
  match hex.data with
  | '0' :: 'x' :: hx => do
    let bs ← hexCharsToBytes hx
    let cps ← utf8Decode bs
    pure (String.mk (cps.map Char.ofNat))
  | _ => none

/-- From `src/utils.ts`: prefix a bare hex string with `0x` if absent. -/
def ensureHexString (value : String) : String :=
  if value.startsWith "0x" then value else "0x" ++ value

/-- From `src/api.ts` (per the repository READMEs): seconds to wait before the
decryption key becomes available. -/
def DECRYPTION_DELAY : Nat := 120

/-- JavaScript truthiness of a `number | null` value: `null`, and the number 0,
are falsy. -/
def jsFalsyNum : Option Nat → Bool
  | none => true
  | some n => n == 0

/-- The reveal guard condition shared by `decrypt` (single-party app) and
`decryptMoves` (game): `!timestamp || currentTime < timestamp + 5`.
`true` means the flow blocks and reports that the key is not yet available. -/
def revealGuardBlocks (ts : Option Nat) (now : Nat) : Bool :=
  jsFalsyNum ts || decide (now < ts.getD 0 + 5)

/-- Readiness predicate as the specification words it:
`isReady(releaseTimestamp, marginSeconds) = now >= releaseTimestamp + marginSeconds`. -/
def isReadySpec (releaseTimestamp marginSeconds now : Nat) : Bool :=
  decide (releaseTimestamp + marginSeconds ≤ now)

/-- External calls an operation can issue: registration (`fetchShutterData`),
encryption (`encryptData`), key fetch (`fetchDecryptionKey`) and SDK
decryption (`decrypt` of the shutter-sdk). -/
inductive Event
  | registerCall (timestamp : Nat)
  | encryptCall (msgHex identityHex eonKeyHex sigmaHex : String)
  | fetchKeyCall (identity : String)
  | sdkDecryptCall (ciphertext key : String)
deriving DecidableEq

/-- Number of `fetchDecryptionKey` calls in an event list. -/
def countFetchCalls (evs : List Event) : Nat :=
  (evs.filter fun e => match e with | .fetchKeyCall _ => true | _ => false).length

/-- Number of `fetchShutterData` (registration) calls in an event list. -/
def countRegisterCalls (evs : List Event) : Nat :=
  (evs.filter fun e => match e with | .registerCall _ => true | _ => false).length

/-- The `(identityHex, eonKeyHex)` arguments of every `encryptData` call in an
event list, in order. -/
def encryptPairs : List Event → List (String × String)
  | [] => []
  | .encryptCall _ iden eon _ :: rest => (iden, eon) :: encryptPairs rest
  | .registerCall _ :: rest => encryptPairs rest
  | .fetchKeyCall _ :: rest => encryptPairs rest
  | .sdkDecryptCall _ _ :: rest => encryptPairs rest

/-- Possible failures of `fetchDecryptionKey`: the key-release network has not
published the key yet, or a transport/service error. The app code catches both
the same way. -/
inductive FetchErr
  | keyNotYetAvailable
  | transport
deriving DecidableEq

/-- Environment of one `encrypt` / `submitMove` call: the wall-clock time, the
outcome of the `fetchShutterData` registration call (eon key and identity as
returned by the service, before `ensureHexString`), the fresh sigma, and the
opaque `encryptData` primitive. -/
structure SubmitEnv where
  now : Nat
  registerResult : Except Unit (String × String)
  sigma : String
  encryptFn : String → String → String → String → String

/-- Environment of one `decrypt` / `decryptMoves` call: the wall-clock time,
the outcome of `fetchDecryptionKey`, and the opaque SDK decryption primitive
(ciphertext and key to plaintext hex, `Except` for a throw). -/
structure DecryptEnv where
  now : Nat
  fetchKeyResult : Except FetchErr String
  sdkDecryptResult : String → String → Except Unit String

/-- React state of the single-party encrypt/decrypt app. -/
structure AppState where
  input : String
  encryptedMessage : String
  decryptedMessage : String
  countdown : Option Int
  decryptionTimestamp : Option Nat
  identity : String
  error : String
deriving DecidableEq

/-- Initial state of the single-party app. -/
def initialAppState : AppState :=
  { input := "", encryptedMessage := "", decryptedMessage := "", countdown := none,
    decryptionTimestamp := none, identity := "", error := "" }

/-- The single-party app's `encrypt` handler. It clears the error, sets the
decryption timestamp and the countdown, awaits `fetchShutterData` (a throw
aborts the handler, keeping the state written so far), then encrypts the input
and stores the commitment. -/
def encrypt (st : AppState) (env : SubmitEnv) : AppState × List Event :=
  let ts := env.now + DECRYPTION_DELAY
  let st1 := { st with error := "", decryptionTimestamp := some ts,
                       countdown := some ((DECRYPTION_DELAY : Int) + 2) }
  match env.registerResult with
  | .error _ => (st1, [.registerCall ts])
  | .ok (eon, iden) =>
    let eonKeyHex := ensureHexString eon
    let identityHex := ensureHexString iden
    let st2 := { st1 with identity := identityHex }
    let msgHex := stringToHex st2.input
    let ct := env.encryptFn msgHex identityHex eonKeyHex env.sigma
    ({ st2 with encryptedMessage := ct },
     [.registerCall ts, .encryptCall msgHex identityHex eonKeyHex env.sigma])

/-- The single-party app's `decrypt` handler: clear the error, require an
identity, apply the reveal guard, then fetch the key, decrypt and decode; any
throw inside the `try` is caught and reported as a failure message. -/
def decrypt (st : AppState) (env : DecryptEnv) : AppState × List Event :=
  let st0 := { st with error := "" }
  if st0.identity = "" then
    ({ st0 with error := "No identity available. Please encrypt a message first." }, [])
  else if revealGuardBlocks st0.decryptionTimestamp env.now then
    ({ st0 with error := "Please wait before decryption key is available" }, [])
  else
    match env.fetchKeyResult with
    | .error _ =>
      ({ st0 with error := "Failed to decrypt message. Please try again." },
       [.fetchKeyCall st0.identity])
    | .ok keyRaw =>
      let key := ensureHexString keyRaw
      match env.sdkDecryptResult st0.encryptedMessage key with
      | .error _ =>
        ({ st0 with error := "Failed to decrypt message. Please try again." },
         [.fetchKeyCall st0.identity, .sdkDecryptCall st0.encryptedMessage key])
      | .ok hexMsg =>
        match hexToString hexMsg with
        | none =>
          ({ st0 with error := "Failed to decrypt message. Please try again." },
           [.fetchKeyCall st0.identity, .sdkDecryptCall st0.encryptedMessage key])
        | some msg =>
          ({ st0 with decryptedMessage := msg },
           [.fetchKeyCall st0.identity, .sdkDecryptCall st0.encryptedMessage key])

/-- The countdown timer effect shared by both apps: while the stored countdown
is positive, each interval tick replaces it by the previous value minus one;
otherwise no interval is running and it is left unchanged. -/
def tickCountdown : Option Int → Option Int
  | none => none
  | some n => if n > 0 then some (n - 1) else some n

/-- Moves of the Rock-Paper-Scissors game. -/
inductive Move
  | rock
  | paper
  | scissors
deriving DecidableEq, Fintype

/-- The string value of a move, as held in the `Move` union type of the app. -/
def Move.toStr : Move → String
  | .rock => "rock"
  | .paper => "paper"
  | .scissors => "scissors"

/-- The two player slots. -/
inductive Player
  | player1
  | player2
deriving DecidableEq

/-- The string value of a player slot name. -/
def playerName : Player → String
  | .player1 => "player1"
  | .player2 => "player2"

/-- Per-player state of the game: its chosen move (`""` when unselected, as in
the `Move | ''` union), its encrypted commitment and the submitted flag. -/
structure PlayerState where
  move : String
  encryptedMove : String
  submitted : Bool
deriving DecidableEq

/-- React state of the Rock-Paper-Scissors app. -/
structure GameState where
  player1 : PlayerState
  player2 : PlayerState
  countdown : Option Int
  encryptionTimestamp : Option Nat
  identity : String
  eonKey : String
  error : String
  result : String
deriving DecidableEq

/-- Initial state of the game app (identity and eon key start as the literal
string `0x`). -/
def initialGameState : GameState :=
  { player1 := { move := "", encryptedMove := "", submitted := false },
    player2 := { move := "", encryptedMove := "", submitted := false },
    countdown := none, encryptionTimestamp := none,
    identity := "0x", eonKey := "0x", error := "", result := "" }

/-- Read one player slot. -/
def getPlayer (st : GameState) : Player → PlayerState
  | .player1 => st.player1
  | .player2 => st.player2

/-- Replace one player slot. -/
def setPlayer (st : GameState) : Player → PlayerState → GameState
  | .player1, ps => { st with player1 := ps }
  | .player2, ps => { st with player2 := ps }

/-- The game's `handleMoveChange` handler: overwrite the chosen move of the
given slot, leaving its other fields alone. -/
def handleMoveChange (st : GameState) (p : Player) (m : Move) : GameState :=
  setPlayer st p { getPlayer st p with move := m.toStr }

/-- The `winningCombinations` record of `determineWinner`, read as a lookup:
the move a given move beats, `none` off the three keys (JavaScript yields
`undefined` there). -/
def winningCombinations : String → Option String
  | "rock" => some "scissors"
  | "paper" => some "rock"
  | "scissors" => some "paper"
  | _ => none

/-- The game's `determineWinner`: tie on equal moves, otherwise player 1 wins
exactly when `winningCombinations[move1] === move2`. -/
def determineWinner (move1 move2 : String) : String :=
  if move1 = move2 then "It\x27s a tie!"
  else if winningCombinations move1 = some move2 then "Player 1 wins!"
  else "Player 2 wins!"

/-- Tail of `submitMove` after the identity and eon key to use are known:
encrypt the slot's move with a fresh sigma, store the commitment, set the
submitted flag, and start the countdown once both players have submitted. -/
def submitMoveFinish (st : GameState) (p : Player) (identityHex eonKeyHex : String)
    (env : SubmitEnv) : GameState × List Event :=
  let msgHex := stringToHex (getPlayer st p).move
  let encryptedMove := env.encryptFn msgHex identityHex eonKeyHex env.sigma
  let st1 := setPlayer st p { getPlayer st p with encryptedMove := encryptedMove, submitted := true }
  let st2 :=
    if st1.player1.submitted && st1.player2.submitted then
      { st1 with countdown := some ((DECRYPTION_DELAY : Int) + 2) }
    else st1
  (st2, [.encryptCall msgHex identityHex eonKeyHex env.sigma])

/-- The game's `submitMove` handler: clear the error, require a selected move,
register an identity via `fetchShutterData` only when no encryption timestamp
exists yet (the timestamp is stored before the network call, so a registration
throw keeps it), then encrypt and record the submission. -/
def submitMove (st : GameState) (p : Player) (env : SubmitEnv) : GameState × List Event :=
  let st0 := { st with error := "" }
  if (getPlayer st0 p).move = "" then
    ({ st0 with error := "Please select a move for " ++ playerName p }, [])
  else if jsFalsyNum st0.encryptionTimestamp then
    let ts := env.now + DECRYPTION_DELAY
    let st1 := { st0 with encryptionTimestamp := some ts }
    match env.registerResult with
    | .error _ => (st1, [.registerCall ts])
    | .ok (eon, iden) =>
      let identityHex := ensureHexString iden
      let eonKeyHex := ensureHexString eon
      let st2 := { st1 with identity := identityHex, eonKey := eonKeyHex }
      let r := submitMoveFinish st2 p identityHex eonKeyHex env
      (r.1, .registerCall ts :: r.2)
  else
    submitMoveFinish st0 p st0.identity st0.eonKey env

/-- The game's `decryptMoves` handler: require an identity (the initial value
`0x` already passes this truthiness check), apply the reveal guard, then fetch
the key, decrypt both commitments, decode them and resolve the outcome; any
throw inside the `try` is caught and reported as a failure message. -/
def decryptMoves (st : GameState) (env : DecryptEnv) : GameState × List Event :=
  if st.identity = "" then
    ({ st with error := "No identity available. Please try submitting moves again." }, [])
  else if revealGuardBlocks st.encryptionTimestamp env.now then
    ({ st with error := "Please wait before decryption key is available" }, [])
  else
    match env.fetchKeyResult with
    | .error _ =>
      ({ st with error := "Failed to decrypt moves. Please try again." },
       [.fetchKeyCall st.identity])
    | .ok keyRaw =>
      let key := ensureHexString keyRaw
      let evs1 := [Event.fetchKeyCall st.identity, .sdkDecryptCall st.player1.encryptedMove key]
      match env.sdkDecryptResult st.player1.encryptedMove key with
      | .error _ =>
        ({ st with error := "Failed to decrypt moves. Please try again." }, evs1)
      | .ok hex1 =>
        match hexToString hex1 with
        | none => ({ st with error := "Failed to decrypt moves. Please try again." }, evs1)
        | some d1 =>
          let evs2 := evs1 ++ [Event.sdkDecryptCall st.player2.encryptedMove key]
          match env.sdkDecryptResult st.player2.encryptedMove key with
          | .error _ =>
            ({ st with error := "Failed to decrypt moves. Please try again." }, evs2)
          | .ok hex2 =>
            match hexToString hex2 with
            | none => ({ st with error := "Failed to decrypt moves. Please try again." }, evs2)
            | some d2 => ({ st with result := determineWinner d1 d2 }, evs2)

/-- Base64 alphabet value of one character, `none` off the alphabet. -/
def b64Val (c : Char) : Option Nat :=
  if 65 ≤ c.toNat ∧ c.toNat ≤ 90 then some (c.toNat - 65)
  else if 97 ≤ c.toNat ∧ c.toNat ≤ 122 then some (c.toNat - 71)
  else if 48 ≤ c.toNat ∧ c.toNat ≤ 57 then some (c.toNat + 4)
  else if c = '+' then some 62
  else if c = '/' then some 63
  else none

/-- Reassemble bytes from 6-bit groups, discarding leftover bits, as the
forgiving-base64 decoder does. -/
def b64DecodeVals : List Nat → List Nat
  | v1 :: v2 :: v3 :: v4 :: rest =>
    (v1 * 4 + v2 / 16) :: ((v2 % 16) * 16 + v3 / 4) :: ((v3 % 4) * 64 + v4) :: b64DecodeVals rest
  | [v1, v2] => [v1 * 4 + v2 / 16]
  | [v1, v2, v3] => [v1 * 4 + v2 / 16, (v2 % 16) * 16 + v3 / 4]
  | _ => []

/-- Check for an ASCII whitespace character (stripped by forgiving-base64). -/
def isAsciiWhitespace (c : Char) : Bool :=
  c = ' ' || c = '\t' || c = '\n' || c = '\x0c' || c = '\r'

/-- Strip one or two trailing `=` padding characters. -/
def stripBase64Padding (l : List Char) : List Char :=
  match l.reverse with
  | '=' :: '=' :: rest => rest.reverse
  | '=' :: rest => rest.reverse
  | _ => l

/-- Model of the browser's `atob` (the WHATWG forgiving-base64 decoder): strip
ASCII whitespace, strip padding when the length is a multiple of four, reject
a remainder of one or any character off the alphabet, and decode the 6-bit
groups into a string of byte-valued characters. `none` models the
`InvalidCharacterError` throw. -/
def atob (s : String) : Option String :=
  let data := s.data.filter (fun c => !isAsciiWhitespace c)
  let data := if data.length % 4 == 0 then stripBase64Padding data else data
  if data.length % 4 == 1 then none
  else do
    let vs ← data.mapM b64Val
    pure (String.mk ((b64DecodeVals vs).map Char.ofNat))

/-- Beats-relation of the claim: rock beats scissors, scissors beats paper,
paper beats rock. -/
def beatsRel : Move → Move → Bool
  | .rock, .scissors => true
  | .scissors, .paper => true
  | .paper, .rock => true
  | _, _ => false

/-- React state of the hello-world demo: just the input and output fields. -/
structure HelloState where
  input : String
  output : String
deriving DecidableEq

/-- The hello-world `decrypt` handler: Base64-decode the input field via
`atob`, reporting `Decrypted: ...` on success and a fixed failure message when
`atob` throws. It issues no external call. -/
def helloDecrypt (st : HelloState) : HelloState × List Event :=
  match atob st.input with
  | some d => ({ st with output := "Decrypted: " ++ d }, [])
  | none => ({ st with output := "Decryption failed: Invalid input" }, [])

/-- Witness state for C1: single-party app with an identity and release
timestamp 100. -/
def c1State : AppState :=
  { initialAppState with identity := "0xid", decryptionTimestamp := some 100 }

/-- Witness environment for C1: clock at 50, key fetch and decryption would
fail if reached. -/
def c1Env : DecryptEnv :=
  { now := 50, fetchKeyResult := Except.error FetchErr.transport,
    sdkDecryptResult := fun _ _ => Except.error () }

/-- Game state for the C6 counterexample: both moves committed, identity set,
release timestamp 100. -/
def c6State : GameState :=
  { initialGameState with
    identity := "0xabc",
    encryptionTimestamp := some 100,
    player1 := { move := "rock", encryptedMove := "0xct1", submitted := true },
    player2 := { move := "paper", encryptedMove := "0xct2", submitted := true } }

/-- Environment for the C6 counterexample: the guard passes (clock at 200) but
the network has not published the key yet, so the fetch fails with the
key-not-yet-available condition. -/
def c6Env : DecryptEnv :=
  { now := 200, fetchKeyResult := Except.error FetchErr.keyNotYetAvailable,
    sdkDecryptResult := fun _ _ => Except.error () }

/-- Environment for the C7 counterexample: registration fails with a transport
error. -/
def c7Env : SubmitEnv :=
  { now := 1000, registerResult := Except.error (), sigma := "0xsigma",
    encryptFn := fun _ _ _ _ => "0xcommitment" }

/-- Witness game state for the amended C7: player 1 has chosen a move, nothing
is registered yet. -/
def c7GameState : GameState :=
  { initialGameState with
    player1 := { move := "rock", encryptedMove := "", submitted := false } }

/-- Game state for the C8 counterexample: player 1 has already submitted rock. -/
def c8State : GameState :=
  { initialGameState with
    player1 := { move := "rock", encryptedMove := "0xct", submitted := true } }

/-- Environment used by the C8 witness. -/
def c8Env : SubmitEnv :=
  { now := 500, registerResult := Except.ok ("0xeon", "0xiden"), sigma := "0xs",
    encryptFn := fun _ _ _ _ => "0xnewct" }

/-- Witness environments for C3. -/
def c3Env1 : SubmitEnv :=
  { now := 1000, registerResult := Except.ok ("eonkey", "iden"), sigma := "0xs1",
    encryptFn := fun _ _ _ _ => "0xct1" }

/-- Second witness environment for C3 (its registration result is never used). -/
def c3Env2 : SubmitEnv :=
  { now := 1010, registerResult := Except.error (), sigma := "0xs2",
    encryptFn := fun _ _ _ _ => "0xct2" }

/-- C2: the reveal guard of `decrypt`/`decryptMoves` blocks exactly when
`now < releaseTimestamp + 5` and passes exactly when `now >= releaseTimestamp + 5`,
matching the specification's `isReady` with margin 5. The hypothesis `0 < R`
reflects the data model (a release timestamp is strictly in the future at
creation, so it is a positive Unix time; the code creates it as `now + 120`). -/
theorem C2_guard_matches_isReady (R now : Nat) (hR : 0 < R) :
    revealGuardBlocks (some R) now = !isReadySpec R 5 now := by
  have h0 : (R == 0) = false := by
    simp [Nat.pos_iff_ne_zero.mp hR]
  simp only [revealGuardBlocks, jsFalsyNum, isReadySpec, Option.getD, h0, Bool.false_or]
  by_cases h : R + 5 ≤ now
  · simp [h, Nat.not_lt.mpr h]
  · simp [h, Nat.lt_of_not_le h]

/-- Witness for C2 at `R = 100`, `now = 200`. -/
theorem C2_guard_matches_isReady_witness :
    0 < 100 ∧ revealGuardBlocks (some 100) 200 = !isReadySpec 100 5 200 :=
  ⟨by decide, C2_guard_matches_isReady 100 200 (by decide)⟩

/-- C4: `determineWinner` is total over the 9 ordered pairs of moves, returns
a tie exactly on equal moves, declares player 1 the winner exactly by the
beats-relation (and player 2 by its converse), swapping the inputs swaps the
declared winner, and in particular (rock, scissors) is a player-1 win and
(scissors, rock) a player-2 win. -/
theorem C4_determineWinner_total_symmetric :
    (∀ a b : Move, determineWinner a.toStr b.toStr = "It\x27s a tie!" ∨
       determineWinner a.toStr b.toStr = "Player 1 wins!" ∨
       determineWinner a.toStr b.toStr = "Player 2 wins!") ∧
    (∀ a b : Move, determineWinner a.toStr b.toStr = "It\x27s a tie!" ↔ a = b) ∧
    (∀ a b : Move, a ≠ b →
       (determineWinner a.toStr b.toStr = "Player 1 wins!" ↔ beatsRel a b = true)) ∧
    (∀ a b : Move, a ≠ b →
       (determineWinner a.toStr b.toStr = "Player 2 wins!" ↔ beatsRel b a = true)) ∧
    (∀ a b : Move, determineWinner a.toStr b.toStr = "Player 1 wins!" →
       determineWinner b.toStr a.toStr = "Player 2 wins!") ∧
    determineWinner Move.rock.toStr Move.scissors.toStr = "Player 1 wins!" ∧
    determineWinner Move.scissors.toStr Move.rock.toStr = "Player 2 wins!" := by
  decide

/-- Witness for C4: the beats-relation clause instantiated at (rock, scissors). -/
theorem C4_determineWinner_witness :
    Move.rock ≠ Move.scissors ∧
    (determineWinner Move.rock.toStr Move.scissors.toStr = "Player 1 wins!" ↔
      beatsRel Move.rock Move.scissors = true) :=
  ⟨by decide, C4_determineWinner_total_symmetric.2.2.1 Move.rock Move.scissors (by decide)⟩

/-- C5 counterexample: the countdown tick does not recompute
`max(0, ReleaseTimestamp - now)` from the wall clock; with a stored countdown
of 50 at a tick where `now` already equals the release timestamp 100, the tick
displays 49 instead of 0. -/
theorem C5_counterexample :
    tickCountdown (some 50) ≠ some (max 0 ((100 : Int) - 100)) := by
  decide

/-- C5 amended: on every tick the displayed countdown is the previously stored
value minus one (the `setCountdown(prev => prev - 1)` updater); it is not
recomputed from wall-clock time, so delayed or skipped ticks make it diverge
from the wall clock. -/
theorem C5_amended_tick_decrements (n : Int) (h : 0 < n) :
    tickCountdown (some n) = some (n - 1) := by
  simp [tickCountdown, h]

/-- Witness for the amended C5 at a stored countdown of 50. -/
theorem C5_amended_tick_decrements_witness :
    0 < (50 : Int) ∧ tickCountdown (some 50) = some (50 - 1) :=
  ⟨by decide, C5_amended_tick_decrements 50 (by decide)⟩

/-- C10: the hello-world `decrypt` issues no external call (no key fetch, no
SDK decryption), leaves the input alone, on a valid Base64 input sets the
output to `Decrypted: ` followed by the decoded text, on an invalid input sets
the fixed failure message, and its output depends only on the input field. -/
theorem C10_helloDecrypt (st : HelloState) :
    (helloDecrypt st).2 = [] ∧
    (helloDecrypt st).1.input = st.input ∧
    (∀ d, atob st.input = some d → (helloDecrypt st).1.output = "Decrypted: " ++ d) ∧
    (atob st.input = none → (helloDecrypt st).1.output = "Decryption failed: Invalid input") ∧
    (∀ st' : HelloState, st'.input = st.input →
      (helloDecrypt st').1.output = (helloDecrypt st).1.output) := by
  cases h : atob st.input with
  | none =>
    refine ⟨by simp [helloDecrypt, h], by simp [helloDecrypt, h], by simp [h],
      fun _ => by simp [helloDecrypt, h], fun st' hin => by simp [helloDecrypt, hin, h]⟩
  | some d =>
    refine ⟨by simp [helloDecrypt, h], by simp [helloDecrypt, h],
      fun d' hd' => ?_, by simp [h], fun st' hin => by simp [helloDecrypt, hin, h]⟩
    obtain rfl : d = d' := Option.some.inj hd'
    simp [helloDecrypt, h]

/-- C1: in both reveal flows, when the wall-clock time is below the release
timestamp plus the 5-second margin, the handler returns having issued no
`fetchDecryptionKey` call (indeed no external call at all), with every state
field except the error message unchanged and a non-empty error message set. -/
theorem C1_no_fetch_before_ready :
    (∀ (st : AppState) (env : DecryptEnv) (r : Nat),
        st.decryptionTimestamp = some r → env.now < r + 5 →
        countFetchCalls (decrypt st env).2 = 0 ∧ (decrypt st env).2 = [] ∧
        (decrypt st env).1.input = st.input ∧
        (decrypt st env).1.encryptedMessage = st.encryptedMessage ∧
        (decrypt st env).1.decryptedMessage = st.decryptedMessage ∧
        (decrypt st env).1.countdown = st.countdown ∧
        (decrypt st env).1.decryptionTimestamp = st.decryptionTimestamp ∧
        (decrypt st env).1.identity = st.identity ∧
        (decrypt st env).1.error ≠ "") ∧
    (∀ (st : GameState) (env : DecryptEnv) (r : Nat),
        st.encryptionTimestamp = some r → env.now < r + 5 →
        countFetchCalls (decryptMoves st env).2 = 0 ∧ (decryptMoves st env).2 = [] ∧
        (decryptMoves st env).1.player1 = st.player1 ∧
        (decryptMoves st env).1.player2 = st.player2 ∧
        (decryptMoves st env).1.countdown = st.countdown ∧
        (decryptMoves st env).1.encryptionTimestamp = st.encryptionTimestamp ∧
        (decryptMoves st env).1.identity = st.identity ∧
        (decryptMoves st env).1.eonKey = st.eonKey ∧
        (decryptMoves st env).1.result = st.result ∧
        (decryptMoves st env).1.error ≠ "") := by
  constructor
  · intro st env r hts hnow
    have hg : revealGuardBlocks st.decryptionTimestamp env.now = true := by
      rw [hts]
      simp [revealGuardBlocks, jsFalsyNum, Option.getD]
      omega
    by_cases hid : st.identity = "" <;>
      simp [decrypt, hid, hg, countFetchCalls]
  · intro st env r hts hnow
    have hg : revealGuardBlocks st.encryptionTimestamp env.now = true := by
      rw [hts]
      simp [revealGuardBlocks, jsFalsyNum, Option.getD]
      omega
    by_cases hid : st.identity = "" <;>
      simp [decryptMoves, hid, hg, countFetchCalls]

/-- Witness for C1 at time 50, release timestamp 100: no fetch is issued and
an error message is set. -/
theorem C1_no_fetch_before_ready_witness :
    c1State.decryptionTimestamp = some 100 ∧ c1Env.now < 100 + 5 ∧
    countFetchCalls (decrypt c1State c1Env).2 = 0 ∧ (decrypt c1State c1Env).1.error ≠ "" :=
  ⟨rfl, by decide,
    (C1_no_fetch_before_ready.1 c1State c1Env 100 rfl (by decide)).1,
    (C1_no_fetch_before_ready.1 c1State c1Env 100 rfl (by decide)).2.2.2.2.2.2.2.2⟩

/-- C6 counterexample: when the key fetch fails because the key is not yet
available, `decryptMoves` surfaces the generic failure message — a message
distinct from the keep-waiting message and from the empty string — instead of
silently returning to the waiting state. -/
theorem C6_counterexample :
    c6Env.fetchKeyResult = Except.error FetchErr.keyNotYetAvailable ∧
    (decryptMoves c6State c6Env).1.error = "Failed to decrypt moves. Please try again." ∧
    (decryptMoves c6State c6Env).1.error ≠ "Please wait before decryption key is available" ∧
    (decryptMoves c6State c6Env).1.error ≠ "" :=
  ⟨rfl, rfl, by decide, by decide⟩

/-- C6 amended: a key fetch that fails because the key is not yet available is
caught by the same catch-all as every other failure: the reveal flow sets the
failure message (`Failed to decrypt moves. Please try again.` in the game,
`Failed to decrypt message. Please try again.` in the single-party app) and
does not retry on a later clock tick; the condition is surfaced as an error,
not as keep-waiting. Exactly one fetch call is issued by the attempt. -/
theorem C6_amended_fetch_failure_surfaced :
    (∀ (st : AppState) (env : DecryptEnv),
        st.identity ≠ "" → revealGuardBlocks st.decryptionTimestamp env.now = false →
        env.fetchKeyResult = Except.error FetchErr.keyNotYetAvailable →
        (decrypt st env).1.error = "Failed to decrypt message. Please try again." ∧
        countFetchCalls (decrypt st env).2 = 1) ∧
    (∀ (st : GameState) (env : DecryptEnv),
        st.identity ≠ "" → revealGuardBlocks st.encryptionTimestamp env.now = false →
        env.fetchKeyResult = Except.error FetchErr.keyNotYetAvailable →
        (decryptMoves st env).1.error = "Failed to decrypt moves. Please try again." ∧
        countFetchCalls (decryptMoves st env).2 = 1) := by
  constructor
  · intro st env hid hg hf
    simp [decrypt, hid, hg, hf, countFetchCalls]
  · intro st env hid hg hf
    simp [decryptMoves, hid, hg, hf, countFetchCalls]

/-- Witness for the amended C6 at the counterexample state. -/
theorem C6_amended_fetch_failure_witness :
    c6State.identity ≠ "" ∧ revealGuardBlocks c6State.encryptionTimestamp c6Env.now = false ∧
    (decryptMoves c6State c6Env).1.error = "Failed to decrypt moves. Please try again." :=
  ⟨by decide, by decide,
    (C6_amended_fetch_failure_surfaced.2 c6State c6Env (by decide) (by decide) rfl).1⟩

/-- C7 counterexample: when `fetchShutterData` fails, no commitment is written,
but partial state from the failed attempt IS retained: `encrypt` has already
set the decryption timestamp and the countdown before the network call. -/
theorem C7_counterexample :
    c7Env.registerResult = Except.error () ∧
    (encrypt initialAppState c7Env).1.encryptedMessage = initialAppState.encryptedMessage ∧
    (encrypt initialAppState c7Env).1.decryptionTimestamp ≠ initialAppState.decryptionTimestamp ∧
    (encrypt initialAppState c7Env).1.countdown ≠ initialAppState.countdown :=
  ⟨rfl, rfl, by decide, by decide⟩

/-- C7 amended: if the registration call fails with a transport error, the
commit operation fails and no commitment is produced — the encrypted-message
(resp. encrypted-move) state, the identity and the eon key are not written and
no encryption call is issued — but partial state from the failed attempt is
retained: the release timestamp (and, in the single-party app, the countdown)
were stored before the network call and survive the failure. -/
theorem C7_amended_registration_failure :
    (∀ (st : AppState) (env : SubmitEnv), env.registerResult = Except.error () →
        (encrypt st env).1.encryptedMessage = st.encryptedMessage ∧
        (encrypt st env).1.identity = st.identity ∧
        (encrypt st env).1.decryptedMessage = st.decryptedMessage ∧
        (encrypt st env).1.input = st.input ∧
        encryptPairs (encrypt st env).2 = [] ∧
        (encrypt st env).1.decryptionTimestamp = some (env.now + DECRYPTION_DELAY) ∧
        (encrypt st env).1.countdown = some ((DECRYPTION_DELAY : Int) + 2)) ∧
    (∀ (st : GameState) (p : Player) (env : SubmitEnv),
        (getPlayer st p).move ≠ "" → jsFalsyNum st.encryptionTimestamp = true →
        env.registerResult = Except.error () →
        (submitMove st p env).1.player1 = st.player1 ∧
        (submitMove st p env).1.player2 = st.player2 ∧
        (submitMove st p env).1.identity = st.identity ∧
        (submitMove st p env).1.eonKey = st.eonKey ∧
        (submitMove st p env).1.result = st.result ∧
        encryptPairs (submitMove st p env).2 = [] ∧
        (submitMove st p env).1.encryptionTimestamp = some (env.now + DECRYPTION_DELAY)) := by
  constructor
  · intro st env hreg
    simp [encrypt, hreg, encryptPairs]
  · intro st p env hmv hts hreg
    cases p <;> simp only [getPlayer] at hmv <;>
      simp [submitMove, getPlayer, hmv, hts, hreg, encryptPairs]

/-- Witness for the amended C7: a failed registration on the first game
submission retains the encryption timestamp but writes no commitment. -/
theorem C7_amended_registration_failure_witness :
    (getPlayer c7GameState Player.player1).move ≠ "" ∧
    jsFalsyNum c7GameState.encryptionTimestamp = true ∧
    (submitMove c7GameState Player.player1 c7Env).1.player1 = c7GameState.player1 ∧
    (submitMove c7GameState Player.player1 c7Env).1.encryptionTimestamp =
      some (c7Env.now + DECRYPTION_DELAY) :=
  ⟨by decide, by decide,
    (C7_amended_registration_failure.2 c7GameState Player.player1 c7Env (by decide) (by decide) rfl).1,
    (C7_amended_registration_failure.2 c7GameState Player.player1 c7Env (by decide) (by decide) rfl).2.2.2.2.2.2⟩

/-- Helper: the string value of a move is never the empty string, so a slot
whose move was set through `handleMoveChange` always passes the selection
check of `submitMove`. -/
theorem Move.toStr_ne_empty (m : Move) : Move.toStr m ≠ "" := by
  cases m <;> decide

/-- Helper: the slot contents produced by `submitMoveFinish` — the target slot
gets the fresh commitment and the submitted flag, every other slot is
untouched. -/
theorem getPlayer_submitMoveFinish (s : GameState) (p q : Player) (iden eon : String)
    (env : SubmitEnv) :
    getPlayer (submitMoveFinish s p iden eon env).1 q =
      if q = p then
        { getPlayer s p with
          encryptedMove := env.encryptFn (stringToHex (getPlayer s p).move) iden eon env.sigma,
          submitted := true }
      else getPlayer s q := by
  unfold submitMoveFinish
  cases p <;> cases q <;> simp [getPlayer, setPlayer] <;> split_ifs <;>
    simp [getPlayer, setPlayer]

/-- C8 counterexample: `handleMoveChange` changes the chosen move of a slot
whose submitted flag is already set, so a submitted slot's chosen move is not
immutable. -/
theorem C8_counterexample :
    c8State.player1.submitted = true ∧ c8State.player1.move = "rock" ∧
    (handleMoveChange c8State Player.player1 Move.paper).player1.submitted = true ∧
    (handleMoveChange c8State Player.player1 Move.paper).player1.move = "paper" := by
  decide

/-- C8 amended: the submitted flag is monotone — `submitMove` only sets it,
`handleMoveChange` and `decryptMoves` leave every slot's flag and encrypted
commitment unchanged — so a slot goes from not-submitted to submitted at most
once and its commitment is not altered by move changes; however, after
submission `handleMoveChange` can still overwrite the slot's chosen move (only
the disabled submit button prevents re-submission). -/
theorem C8_amended_submitted_monotone :
    (∀ (st : GameState) (p : Player) (m : Move) (q : Player),
        (getPlayer (handleMoveChange st p m) q).submitted = (getPlayer st q).submitted ∧
        (getPlayer (handleMoveChange st p m) q).encryptedMove = (getPlayer st q).encryptedMove) ∧
    (∀ (st : GameState) (p : Player) (env : SubmitEnv) (q : Player),
        (getPlayer st q).submitted = true →
        (getPlayer (submitMove st p env).1 q).submitted = true) ∧
    (∀ (st : GameState) (env : DecryptEnv) (q : Player),
        getPlayer (decryptMoves st env).1 q = getPlayer st q) := by
  refine ⟨?_, ?_, ?_⟩
  · intro st p m q
    cases p <;> cases q <;> simp [handleMoveChange, getPlayer, setPlayer]
  · intro st p env q hq
    simp only [submitMove]
    split_ifs with h1 h2
    · cases q <;> simpa [getPlayer] using hq
    · cases henv : env.registerResult with
      | error e =>
        simp only [henv]
        cases q <;> simpa [getPlayer] using hq
      | ok pr =>
        obtain ⟨eon, iden⟩ := pr
        simp only [henv, getPlayer_submitMoveFinish]
        split_ifs with hqp
        · rfl
        · cases q <;> simpa [getPlayer] using hq
    · simp only [getPlayer_submitMoveFinish]
      split_ifs with hqp
      · rfl
      · cases q <;> simpa [getPlayer] using hq
  · intro st env q
    simp only [decryptMoves]
    split_ifs with h1 h2
    · cases q <;> simp [getPlayer]
    · cases q <;> simp [getPlayer]
    · cases henv : env.fetchKeyResult with
      | error e => cases q <;> simp [henv, getPlayer]
      | ok keyRaw =>
        simp only [henv]
        cases h3 : env.sdkDecryptResult st.player1.encryptedMove (ensureHexString keyRaw) with
        | error e => cases q <;> simp [h3, getPlayer]
        | ok hex1 =>
          simp only [h3]
          cases h4 : hexToString hex1 with
          | none => cases q <;> simp [h4, getPlayer]
          | some d1 =>
            simp only [h4]
            cases h5 : env.sdkDecryptResult st.player2.encryptedMove (ensureHexString keyRaw) with
            | error e => cases q <;> simp [h5, getPlayer]
            | ok hex2 =>
              simp only [h5]
              cases h6 : hexToString hex2 with
              | none => cases q <;> simp [h6, getPlayer]
              | some d2 => cases q <;> simp [h6, getPlayer]

/-- Witness for the amended C8: re-running `submitMove` on the already
submitted slot keeps the submitted flag set. -/
theorem C8_amended_submitted_monotone_witness :
    (getPlayer c8State Player.player1).submitted = true ∧
    (getPlayer (submitMove c8State Player.player1 c8Env).1 Player.player1).submitted = true :=
  ⟨rfl, C8_amended_submitted_monotone.2.1 c8State Player.player1 c8Env Player.player1 rfl⟩

set_option maxHeartbeats 1600000 in
/-- C3: in a fresh game session in which one player submits and then the other
does, `fetchShutterData` is called exactly once — during the first submission,
when no encryption timestamp exists yet — and both encrypted commitments are
produced by `encryptData` calls that use the identical
`(identity, eonKey) = (ensureHexString iden, ensureHexString eon)` pair cached
from that single registration. -/
theorem C3_shared_identity_single_registration
    (p q : Player) (m1 m2 : Move) (env1 env2 : SubmitEnv) (eon iden : String)
    (hpq : p ≠ q) (hreg : env1.registerResult = Except.ok (eon, iden)) :
    countRegisterCalls
      (submitMove (handleMoveChange (handleMoveChange initialGameState p m1) q m2) p env1).2 = 1 ∧
    encryptPairs
      (submitMove (handleMoveChange (handleMoveChange initialGameState p m1) q m2) p env1).2 =
      [(ensureHexString iden, ensureHexString eon)] ∧
    countRegisterCalls
      (submitMove
        (submitMove (handleMoveChange (handleMoveChange initialGameState p m1) q m2) p env1).1
        q env2).2 = 0 ∧
    encryptPairs
      (submitMove
        (submitMove (handleMoveChange (handleMoveChange initialGameState p m1) q m2) p env1).1
        q env2).2 = [(ensureHexString iden, ensureHexString eon)] := by
  have hD : DECRYPTION_DELAY ≠ 0 := by decide
  cases p <;> cases q <;> (try exact absurd rfl hpq) <;>
    simp [submitMove, handleMoveChange, initialGameState, getPlayer, setPlayer,
          Move.toStr_ne_empty, jsFalsyNum, hreg, hD, submitMoveFinish,
          countRegisterCalls, encryptPairs]

/-- Witness for C3: player 1 submits rock, then player 2 submits scissors;
one registration, and both encryptions use the shared cached pair. -/
theorem C3_shared_identity_witness :
    Player.player1 ≠ Player.player2 ∧
    countRegisterCalls
      (submitMove
        (handleMoveChange (handleMoveChange initialGameState Player.player1 Move.rock)
          Player.player2 Move.scissors) Player.player1 c3Env1).2 = 1 ∧
    encryptPairs
      (submitMove
        (submitMove
          (handleMoveChange (handleMoveChange initialGameState Player.player1 Move.rock)
            Player.player2 Move.scissors) Player.player1 c3Env1).1
        Player.player2 c3Env2).2 = [(ensureHexString "iden", ensureHexString "eonkey")] :=
  ⟨by decide,
    (C3_shared_identity_single_registration Player.player1 Player.player2 Move.rock Move.scissors
      c3Env1 c3Env2 "eonkey" "iden" (by decide) rfl).1,
    (C3_shared_identity_single_registration Player.player1 Player.player2 Move.rock Move.scissors
      c3Env1 c3Env2 "eonkey" "iden" (by decide) rfl).2.2.2⟩

/-- Helper: a hex digit character decodes back to its value. -/
theorem hexDigitVal_hexDigitChar : ∀ n : Nat, n < 16 → hexDigitVal (hexDigitChar n) = some n := by
  decide

/-- Helper: prepending the two hex digits of a byte to a well-parsed tail
parses to that byte consed onto the tail's bytes. -/
theorem hexCharsToBytes_byteToHex (b : Nat) (hb : b < 256) (rest : List Char) (bs : List Nat)
    (h : hexCharsToBytes rest = some bs) :
    hexCharsToBytes (byteToHex b ++ rest) = some (b :: bs) := by
  have h1 := hexDigitVal_hexDigitChar (b / 16) (by omega)
  have h2 := hexDigitVal_hexDigitChar (b % 16) (by omega)
  simp [byteToHex, hexCharsToBytes, h1, h2, h]
  omega

/-- Helper: hex encoding of a byte list parses back to the same bytes. -/
theorem hexCharsToBytes_bytesToHexChars (bs : List Nat) (h : ∀ b ∈ bs, b < 256) :
    hexCharsToBytes (bytesToHexChars bs) = some bs := by
  induction bs with
  | nil => rfl
  | cons b rest ih =>
    have htail : hexCharsToBytes (bytesToHexChars rest) = some rest :=
      ih (fun x hx => h x (List.mem_cons_of_mem _ hx))
    exact hexCharsToBytes_byteToHex b (h b (List.mem_cons_self _ _)) _ _ htail

/-- Helper: the validity invariant of `Char` as plain bounds on the scalar
value — below the surrogate range, or above it and below 0x110000. -/
theorem char_valid_range (c : Char) :
    c.toNat < 55296 ∨ (57343 < c.toNat ∧ c.toNat < 1114112) := by
  have h := c.valid
  simp only [UInt32.isValidChar, Nat.isValidChar] at h
  exact h

/-- Helper: every byte of a UTF-8 encoded character is below 256. -/
theorem utf8EncodeChar_lt_256 (c : Char) : ∀ b ∈ utf8EncodeChar c, b < 256 := by
  intro b hb
  have hv : c.toNat < 1114112 := by rcases char_valid_range c with h | h <;> omega
  simp only [utf8EncodeChar] at hb
  split_ifs at hb <;> simp at hb <;> omega

/-- Helper: every byte of a UTF-8 encoded character list is below 256. -/
theorem utf8Encode_lt_256 (cs : List Char) : ∀ b ∈ utf8Encode cs, b < 256 := by
  induction cs with
  | nil => intro b hb; simp [utf8Encode] at hb
  | cons c rest ih =>
    intro b hb
    rw [utf8Encode] at hb
    rcases List.mem_append.mp hb with h | h
    · exact utf8EncodeChar_lt_256 c b h
    · exact ih b h

/-- Helper: the UTF-8 encoding of a character is never empty. -/
theorem utf8EncodeChar_ne_nil (c : Char) : utf8EncodeChar c ≠ [] := by
  simp only [utf8EncodeChar]
  split_ifs <;> simp

/-- Helper: decoding one character from the UTF-8 encoding of `c` prepended to
any tail yields the scalar value of `c` and the untouched tail. -/
theorem utf8DecodeOne_utf8EncodeChar (c : Char) (rest : List Nat) :
    utf8DecodeOne (utf8EncodeChar c ++ rest) = some (c.toNat, rest) := by
  have hval := char_valid_range c
  by_cases h1 : c.toNat < 128
  · have he : utf8EncodeChar c = [c.toNat] := by simp [utf8EncodeChar, h1]
    rw [he, List.cons_append, List.nil_append]
    simp [utf8DecodeOne, h1]
  · by_cases h2 : c.toNat < 2048
    · have he : utf8EncodeChar c = [192 + c.toNat / 64, 128 + c.toNat % 64] := by
        simp [utf8EncodeChar, h1, h2]
      rw [he, List.cons_append, List.cons_append, List.nil_append]
      have d1 : ¬ (192 + c.toNat / 64 < 128) := by omega
      have d2 : ¬ (192 + c.toNat / 64 < 194) := by omega
      have d3 : 192 + c.toNat / 64 < 224 := by omega
      have d4 : contOk (128 + c.toNat % 64) = true := by
        simp [contOk]
        omega
      have dv : (192 + c.toNat / 64 - 192) * 64 + (128 + c.toNat % 64 - 128) = c.toNat := by
        omega
      simp [utf8DecodeOne, decode2, d1, d2, d3, d4, dv]
      omega
    · by_cases h3 : c.toNat < 65536
      · have he : utf8EncodeChar c =
            [224 + c.toNat / 4096, 128 + c.toNat / 64 % 64, 128 + c.toNat % 64] := by
          simp [utf8EncodeChar, h1, h2, h3]
        rw [he, List.cons_append, List.cons_append, List.cons_append, List.nil_append]
        have d1 : ¬ (224 + c.toNat / 4096 < 128) := by omega
        have d2 : ¬ (224 + c.toNat / 4096 < 194) := by omega
        have d3 : ¬ (224 + c.toNat / 4096 < 224) := by omega
        have d4 : 224 + c.toNat / 4096 < 240 := by omega
        have d5 : contOk (128 + c.toNat / 64 % 64) = true := by
          simp [contOk]
          omega
        have d6 : contOk (128 + c.toNat % 64) = true := by
          simp [contOk]
          omega
        have dv : (224 + c.toNat / 4096 - 224) * 4096 + (128 + c.toNat / 64 % 64 - 128) * 64 +
            (128 + c.toNat % 64 - 128) = c.toNat := by
          omega
        have hcond : (decide (2048 ≤ c.toNat) &&
            (decide (c.toNat < 55296) || decide (57343 < c.toNat))) = true := by
          simp only [Bool.and_eq_true, Bool.or_eq_true, decide_eq_true_eq]
          omega
        simp [utf8DecodeOne, decode3, d1, d2, d3, d4, d5, d6, dv, hcond]
        omega
      · have he : utf8EncodeChar c =
            [240 + c.toNat / 262144, 128 + c.toNat / 4096 % 64, 128 + c.toNat / 64 % 64,
              128 + c.toNat % 64] := by
          simp [utf8EncodeChar, h1, h2, h3]
        rw [he, List.cons_append, List.cons_append, List.cons_append, List.cons_append,
          List.nil_append]
        have hv : c.toNat < 1114112 := by omega
        have d1 : ¬ (240 + c.toNat / 262144 < 128) := by omega
        have d2 : ¬ (240 + c.toNat / 262144 < 194) := by omega
        have d3 : ¬ (240 + c.toNat / 262144 < 224) := by omega
        have d4 : ¬ (240 + c.toNat / 262144 < 240) := by omega
        have d5 : 240 + c.toNat / 262144 < 245 := by omega
        have d6 : contOk (128 + c.toNat / 4096 % 64) = true := by
          simp [contOk]
          omega
        have d7 : contOk (128 + c.toNat / 64 % 64) = true := by
          simp [contOk]
          omega
        have d8 : contOk (128 + c.toNat % 64) = true := by
          simp [contOk]
          omega
        have dv : (240 + c.toNat / 262144 - 240) * 262144 +
            (128 + c.toNat / 4096 % 64 - 128) * 4096 +
            (128 + c.toNat / 64 % 64 - 128) * 64 + (128 + c.toNat % 64 - 128) = c.toNat := by
          omega
        have hcond : (decide (65536 ≤ c.toNat) && decide (c.toNat < 1114112)) = true := by
          simp only [Bool.and_eq_true, decide_eq_true_eq]
          omega
        simp [utf8DecodeOne, decode4, d1, d2, d3, d4, d5, d6, d7, d8, dv, hcond]
        omega

/-- Helper: with enough fuel (at least the byte count), the decoding loop
inverts UTF-8 encoding on every character list. -/
theorem utf8DecodeGo_utf8Encode (cs : List Char) :
    ∀ fuel : Nat, (utf8Encode cs).length ≤ fuel →
      utf8DecodeGo fuel (utf8Encode cs) = some (cs.map Char.toNat) := by
  induction cs with
  | nil => intro fuel _; cases fuel <;> rfl
  | cons c rest ih =>
    intro fuel hf
    obtain ⟨b, tl, hb⟩ := List.exists_cons_of_ne_nil (utf8EncodeChar_ne_nil c)
    rw [utf8Encode] at hf ⊢
    have hlen : 1 + (utf8Encode rest).length ≤ fuel := by
      rw [List.length_append, hb] at hf
      simp only [List.length_cons] at hf
      omega
    obtain ⟨k, rfl⟩ : ∃ k, fuel = k + 1 := by
      cases fuel with
      | zero => exact absurd hlen (by omega)
      | succ k => exact ⟨k, rfl⟩
    have hsh : utf8EncodeChar c ++ utf8Encode rest = b :: (tl ++ utf8Encode rest) := by
      rw [hb, List.cons_append]
    rw [hsh]
    simp only [utf8DecodeGo]
    rw [← hsh, utf8DecodeOne_utf8EncodeChar]
    have hrec : utf8DecodeGo k (utf8Encode rest) = some (rest.map Char.toNat) :=
      ih k (by omega)
    simp [hrec]

/-- Helper: UTF-8 decoding inverts UTF-8 encoding on every character list. -/
theorem utf8Decode_utf8Encode (cs : List Char) :
    utf8Decode (utf8Encode cs) = some (cs.map Char.toNat) := by
  unfold utf8Decode
  exact utf8DecodeGo_utf8Encode cs _ le_rfl

/-- C9: the codec pair used by the apps round-trips — for every text,
decoding the hex payload produced by `stringToHex` with `hexToString` returns
the original text. -/
theorem C9_codec_roundtrip (s : String) : hexToString (stringToHex s) = some s := by
  obtain ⟨cs⟩ := s
  simp only [stringToHex, hexToString,
    hexCharsToBytes_bytesToHexChars _ (utf8Encode_lt_256 cs), utf8Decode_utf8Encode,
    Option.bind_eq_bind, Option.some_bind]
  have hcomp : Char.ofNat ∘ Char.toNat = id := funext fun c => Char.ofNat_toNat c
  simp [List.map_map, hcomp]

/-- Witness for C10 at the Base64 input `aGk=` (decodes to `hi`). -/
theorem C10_helloDecrypt_witness :
    atob "aGk=" = some "hi" ∧
    (helloDecrypt { input := "aGk=", output := "" }).1.output = "Decrypted: " ++ "hi" :=
  ⟨rfl, (C10_helloDecrypt { input := "aGk=", output := "" }).2.2.1 "hi" rfl⟩

end Shutter
